import Mathlib

/-!
# AevumDB storage engine: a shallow embedding and verification

This file embeds the storage core of AevumDB (`src/storage/db.cpp`,
`src/storage/engine.cpp`) in Lean 4 and proves or refutes the frozen
specification claims about it.

Modelling conventions, fixed once and used throughout:

* JSON values (`cJSON` trees) are modelled by the inductive `JVal`.
  Objects keep their fields as an ordered association list, matching the
  child list of a `cJSON` object node.  `cJSON_GetObjectItem` is modelled
  as first-match key lookup; the cJSON library compares keys
  case-insensitively, a library detail no claim depends on, so lookup is
  modelled case-sensitively here.
* JSON numbers are carried as integers with decimal rendering via
  `toString`.  No claim in scope depends on `double` formatting.
* The byte content of log files is `List Nat` (one entry per byte,
  values < 256 at all call sites of interest).
* `cJSON_Parse` and the Rust predicate engine (`ffi::call_*`) are
  external-library boundaries: their outcomes enter the model as
  explicit parameters (`Option JVal` parse results, oracle booleans for
  validation, parsed FFI result arrays).
* Lock acquisition/release order is modelled as a static event trace per
  operation, read off the `std::unique_lock` / `std::shared_lock`
  declarations in the source.
-/

namespace AevumDb

/-- JSON values, mirroring the `cJSON` tree shape used throughout
`db.cpp`.  Objects are ordered field lists (the cJSON child list). -/
inductive JVal where
  | null : JVal
  | bool (b : Bool) : JVal
  | num (n : Int) : JVal
  | str (s : String) : JVal
  | arr (items : List JVal) : JVal
  | obj (fields : List (String × JVal)) : JVal

mutual

/-- Structural equality test on JSON values (the stand-in of the model for
pointer identity where the source compares `cJSON*` values that
originate from the same owning array). -/
def JVal.beq : JVal → JVal → Bool
  | .null, .null => true
  | .bool a, .bool b => a == b
  | .num a, .num b => a == b
  | .str a, .str b => a == b
  | .arr as, .arr bs => JVal.beqList as bs
  | .obj as, .obj bs => JVal.beqFields as bs
  | _, _ => false

/-- Elementwise `JVal.beq` on child lists. -/
def JVal.beqList : List JVal → List JVal → Bool
  | [], [] => true
  | a :: as, b :: bs => JVal.beq a b && JVal.beqList as bs
  | _, _ => false

/-- Elementwise `JVal.beq` on object field lists. -/
def JVal.beqFields : List (String × JVal) → List (String × JVal) → Bool
  | [], [] => true
  | (k, a) :: as, (l, b) :: bs => k == l && JVal.beq a b && JVal.beqFields as bs
  | _, _ => false

end

instance : BEq JVal := ⟨JVal.beq⟩

/-- Model of `cJSON_GetObjectItem(item, key)`: first field of an object
node whose name matches; `none` on non-objects or missing keys. -/
def lookupField (v : JVal) (key : String) : Option JVal :=
  match v with
  | JVal.obj fields =>
      match fields.find? (fun p => p.1 == key) with
      | some p => some p.2
      | none => none
  | _ => none

/-- Model of `cJSON_GetArraySize`: the number of children of an array or
object node (0 for scalars, as in cJSON). -/
def childCount (v : JVal) : Nat :=
  match v with
  | JVal.arr items => items.length
  | JVal.obj fields => fields.length
  | _ => 0

/-- Model of `cJSON_IsTrue(item)` applied to an optional lookup result:
true exactly for a present JSON `true` node. -/
def isTrueVal (v : Option JVal) : Bool :=
  match v with
  | some (JVal.bool true) => true
  | _ => false

/-- Model of `cJSON_IsString(item) && item->valuestring != NULL` applied
to an optional lookup result: the string payload when present. -/
def asString (v : Option JVal) : Option String :=
  match v with
  | some (JVal.str s) => some s
  | _ => none

/-- The stringification used by the secondary-index code
(`Db::update_custom_index`, `Db::find` tier 2): a string value is taken
verbatim, a number is rendered in decimal, anything else is undefined. -/
def stringifyVal (v : Option JVal) : Option String :=
  match v with
  | some (JVal.str s) => some s
  | some (JVal.num n) => some (toString n)
  | _ => none

/-! ## Association-list maps

`std::unordered_map` fields of `Db` are modelled as association lists
with first-match lookup; `aset` replaces in place or appends, `aerase`
removes, so keys stay distinct when maps are built through these
operations alone. -/

/-- Lookup in an association-list map. -/
def alookup {α : Type} (m : List (String × α)) (k : String) : Option α :=
  match m.find? (fun p => p.1 == k) with
  | some p => some p.2
  | none => none

/-- Insert-or-replace in an association-list map (`map[k] = v`). -/
def aset {α : Type} (m : List (String × α)) (k : String) (v : α) :
    List (String × α) :=
  match m with
  | [] => [(k, v)]
  | p :: rest => if p.1 == k then (k, v) :: rest else p :: aset rest k v

/-- Erase a key from an association-list map (`map.erase(k)`). -/
def aerase {α : Type} (m : List (String × α)) (k : String) :
    List (String × α) :=
  match m with
  | [] => []
  | p :: rest => if p.1 == k then rest else p :: aerase rest k

/-- Lookup with a default, modelling `operator[]` default construction
followed by read-only use. -/
def agetD {α : Type} (m : List (String × α)) (k : String) (d : α) : α :=
  (alookup m k).getD d

/-! ## Log file codec (`Engine`, engine.cpp)

The `.aev` file of a collection is a byte sequence.  `Engine::append` writes
`[u32 LE length][length payload bytes]`, where `length` is the payload
size cast to `uint32_t`; `Engine::load_log` repeatedly reads a 4-byte
header and then `length` payload bytes, stopping silently on a truncated
header or a truncated payload (engine.cpp lines 102-141, 153-175). -/

/-- Little-endian byte rendering of the low 32 bits of `n`, as written
by `file.write(reinterpret_cast<const char*>(&length), 4)`. -/
def le32 (n : Nat) : List Nat :=
  [n % 256, n / 256 % 256, n / 65536 % 256, n / 16777216 % 256]

/-- The 32-bit value read back from 4 little-endian header bytes. -/
def readLE32 (b0 b1 b2 b3 : Nat) : Nat :=
  b0 + 256 * b1 + 65536 * b2 + 16777216 * b3

/-- The bytes one `Engine::append` call adds to the file: the header is
the payload size cast to `uint32_t`, and exactly `length` payload bytes
follow (`file.write(raw_json.c_str(), length)`). -/
def encodeFrame (p : List Nat) : List Nat :=
  le32 p.length ++ p.take (p.length % 2 ^ 32)

/-- File contents after appending `payloads` in order to a fresh log. -/
def appendAll (payloads : List (List Nat)) : List Nat :=
  (payloads.map encodeFrame).flatten

/-- The reader loop of `Engine::load_log` over the file bytes: stop at EOF,
stop on a header of fewer than 4 bytes, read `length` payload bytes and
stop if fewer remain, else emit the payload and continue. -/
def load_log : List Nat → List (List Nat)
  | [] => []
  | b0 :: b1 :: b2 :: b3 :: rest =>
      if rest.length < readLE32 b0 b1 b2 b3 then []
      else rest.take (readLE32 b0 b1 b2 b3) ::
        load_log (rest.drop (readLE32 b0 b1 b2 b3))
  | _ => []
termination_by bytes => bytes.length
decreasing_by simp [List.length_drop]; omega

/-- The trailing bytes form an incomplete frame: a short header, or a
full header announcing more payload bytes than follow. -/
def incompleteTail (tail : List Nat) : Prop :=
  tail.length < 4 ∨
    ∃ b0 b1 b2 b3 r, tail = b0 :: b1 :: b2 :: b3 :: r ∧
      r.length < readLE32 b0 b1 b2 b3

/-! ## Credential hashing (`Db::hash_key`, db.cpp lines 46-52)

```cpp
unsigned long hash = 5381;
for (char c : key)
    hash = ((hash << 5) + hash) + c;
return std::to_string(hash);
```

On the reference platform (x86-64 Linux) `unsigned long` is 64 bits wide
and `char` is signed; the conversion of a negative `char` to
`unsigned long` wraps modulo 2^64.  A byte `b ≥ 128` therefore enters
the sum as `2^64 - 256 + b`, i.e. as `b - 256` modulo 2^64. -/

/-- The value a `char` holding byte `b` contributes once converted to
`unsigned long`: bytes < 128 contribute themselves, bytes ≥ 128 are
sign-extended and wrap to `2^64 - 256 + b`. -/
def charToU64 (b : Nat) : Nat :=
  if b < 128 then b else 2 ^ 64 - 256 + b

/-- One loop iteration of `Db::hash_key`:
`hash = ((hash << 5) + hash) + c`, every operation wrapping mod 2^64. -/
def codeHashStep (h b : Nat) : Nat :=
  ((h <<< 5) + h + charToU64 b) % 2 ^ 64

/-- The DJB2 accumulator loop of `Db::hash_key`, one step per input
byte. -/
def hashKeyAcc (bytes : List Nat) : Nat :=
  bytes.foldl codeHashStep 5381

/-- Function `Db::hash_key`: decimal rendering of the accumulated hash. -/
def hash_key (bytes : List Nat) : String :=
  toString (hashKeyAcc bytes)

/-- One step exactly as claim C9 words it: the input byte `c`
contributes its byte value, `hash = (hash << 5) + hash + c` in 64-bit
unsigned arithmetic with wraparound. -/
def claimHashStep (h b : Nat) : Nat :=
  ((h <<< 5) + h + b) % 2 ^ 64

/-- The accumulation of claim C9. -/
def hashKeyClaimAcc (bytes : List Nat) : Nat :=
  bytes.foldl claimHashStep 5381

/-- One step of the amended accumulation: the byte enters as a
**signed** 8-bit value (twos-complement), i.e. bytes ≥ 128 contribute
`b - 256`, computed over the integers and reduced modulo 2^64. -/
def signedHashStep (h : Int) (b : Nat) : Int :=
  (h * 33 + (if b < 128 then (b : Int) else (b : Int) - 256)) % 2 ^ 64

/-- The amended accumulation of claim C9. -/
def hashKeySignedAcc (bytes : List Nat) : Int :=
  bytes.foldl signedHashStep 5381

/-! ## Recovery replay of the frames of one collection
(`Db::load_all`, db.cpp lines 137-178)

A frame enters the replay loop as the result of `cJSON_Parse` on the
payload: `none` models a parse failure.  The loop maintains
`temp_map : _id → document`; the in-memory array is then materialised
from the map, so the recovered document set *is* the map. -/

/-- One log frame after `cJSON_Parse`: `none` is a corrupt frame. -/
abbrev Frame := Option JVal

/-- One iteration of the replay loop (db.cpp lines 137-178), transcribed
from the control flow of the source: skip corrupt frames; read `_id`; when it
is a string, a `_deleted: true` marker erases the key, anything else
inserts or replaces; frames without a string `_id` are skipped. -/
def applyFrame (m : List (String × JVal)) (f : Frame) : List (String × JVal) :=
  match f with
  | none => m
  | some item =>
      match asString (lookupField item "_id") with
      | some uuid =>
          if isTrueVal (lookupField item "_deleted") then aerase m uuid
          else aset m uuid item
      | none => m

/-- The map reconstructed by replaying the frames of a collection in order. -/
def replayFrames (frames : List Frame) : List (String × JVal) :=
  frames.foldl applyFrame []

/-- One replay step as claim C1 words it, written from the claim text
(not the source): a parseable frame carrying a string `_id` and no
`_deleted: true` marker inserts or replaces; a frame with
`_deleted: true` and a string `_id` removes that `_id` (a no-op when
absent); a frame lacking `_id` or failing to parse is skipped. -/
def specApplyFrame (m : List (String × JVal)) (f : Frame) :
    List (String × JVal) :=
  match f with
  | none => m
  | some item =>
      match asString (lookupField item "_id"), isTrueVal (lookupField item "_deleted") with
      | some uuid, false => aset m uuid item
      | some uuid, true => aerase m uuid
      | none, _ => m

/-- The left fold that claim C1 describes. -/
def specReplayFrames (frames : List Frame) : List (String × JVal) :=
  frames.foldl specApplyFrame []

/-- A tombstone frame `{"_id": uuid, "_deleted": true}` as appended by
`Db::remove` (db.cpp lines 756-758). -/
def tombstone (uuid : String) : JVal :=
  JVal.obj [("_id", JVal.str uuid), ("_deleted", JVal.bool true)]

/-! ## The database controller state (`Db`, db.hpp lines 230-258)

Each `std::unordered_map` member becomes an association list; `cJSON*`
document pointers become document values (index entries reference the
same value stored in the collection array).  `files` is the byte
content of the `.aev` file of each collection. -/

/-- RBAC roles (db.hpp lines 40-45). -/
inductive UserRole where
  | NONE
  | READ_ONLY
  | READ_WRITE
  | ADMIN
deriving DecidableEq

/-- The mutable state of a `Db` instance plus the on-disk files. -/
structure DbState where
  memory_store : List (String × List JVal)
  id_indexes : List (String × List (String × JVal))
  schemas : List (String × JVal)
  custom_indexes :
    List (String × List (String × List (String × List JVal)))
  indexed_fields : List (String × List String)
  auth_cache : List (String × UserRole)
  files : List (String × List Nat)

/-- The empty state of a freshly constructed controller. -/
def initState : DbState := ⟨[], [], [], [], [], [], []⟩

/-- Read a secondary-index bucket.  All reads the source performs of
`custom_indexes_` go through `operator[]` chains; reading through
defaults makes a missing bucket and an empty bucket indistinguishable,
which is also true of every observation the source performs (the
default-insertion side effect of `operator[]` is therefore not
modelled). -/
def secondaryBucket (st : DbState) (coll field v : String) : List JVal :=
  agetD (agetD (agetD st.custom_indexes coll []) field []) v []

/-- The new secondary-index table `Db::update_custom_index` computes
(db.cpp lines 364-391), as a function of the only two components it
reads — the registered fields and the current table: for each field
registered on the collection, stringify the value of the document at that
field (string verbatim, number in decimal, otherwise skip) and add the
document to — or remove the first matching occurrence from — the bucket
under that rendering; a bucket emptied by a removal is erased. -/
def customIndexUpdate (idx : List (String × List String))
    (start : List (String × List (String × List (String × List JVal))))
    (coll : String) (doc : JVal) (add : Bool) :
    List (String × List (String × List (String × List JVal))) :=
  match alookup idx coll with
  | none => start
  | some fields =>
      fields.foldl
        (fun ci field =>
          match stringifyVal (lookupField doc field) with
          | none => ci
          | some keyVal =>
              let collMap := agetD ci coll []
              let fieldMap := agetD collMap field []
              let vec := agetD fieldMap keyVal []
              if add then
                aset ci coll (aset collMap field
                  (aset fieldMap keyVal (vec ++ [doc])))
              else
                if (vec.find? (fun d => JVal.beq d doc)).isSome then
                  let vec2 := vec.eraseP (fun d => JVal.beq d doc)
                  if vec2.isEmpty then
                    aset ci coll (aset collMap field (aerase fieldMap keyVal))
                  else
                    aset ci coll (aset collMap field
                      (aset fieldMap keyVal vec2))
                else ci)
        start

/-- Method `Db::update_custom_index` as a state transformer: it rewrites
`custom_indexes` from `indexed_fields` and leaves every other component
untouched. -/
def update_custom_index (st : DbState) (coll : String) (doc : JVal)
    (add : Bool) : DbState :=
  { st with custom_indexes :=
      (customIndexUpdate st.indexed_fields st.custom_indexes coll doc add) }

/-- One document of the `Db::rebuild_index` loop (db.cpp lines
346-354): insert into the primary index when `_id` is a string, then
into every registered secondary index. -/
def rebuildStep (coll : String) (s : DbState) (doc : JVal) : DbState :=
  let s1 :=
    match asString (lookupField doc "_id") with
    | some id =>
        { s with id_indexes :=
            (aset s.id_indexes coll
              (aset (agetD s.id_indexes coll []) id doc)) }
    | none => s
  update_custom_index s1 coll doc true

/-- Method `Db::rebuild_index` (db.cpp lines 340-355): clear both indexes for
the collection, then fold `rebuildStep` over the documents in array
order. -/
def rebuild_index (st : DbState) (coll : String) (docs : List JVal) :
    DbState :=
  let st0 := { st with
    id_indexes := aset st.id_indexes coll [],
    custom_indexes := aset st.custom_indexes coll [] }
  docs.foldl (rebuildStep coll) st0

/-! ## Full recovery (`Db::load_all`, db.cpp lines 105-218)

The loop iterates the collections in the order `list_collections`
returned them — directory iteration order, which the filesystem does not
specify.  `_indexes` frames are processed *inside* this loop, not in a
dedicated earlier phase, so registered fields accumulated from
`_indexes` only affect collections enumerated after it. -/

/-- One collection as recovery sees it: its name (file stem) and its
parsed frames in file order. -/
structure RecEntry where
  name : String
  frames : List Frame

/-- One `_indexes` frame (db.cpp lines 115-128): iterate the children of
the parsed value, and for each child with string `collection` and
`field` members register the field (set insertion, here insertion-order
and deduplicated).  The source reads the `valuestring`s after a presence
check only; non-string members are undefined behaviour there and
excluded here. -/
def indexFrameStep (idx : List (String × List String)) (f : Frame) :
    List (String × List String) :=
  let step := fun (acc : List (String × List String)) (item : JVal) =>
    match asString (lookupField item "collection"),
        asString (lookupField item "field") with
    | some c, some fieldName =>
        let cur := agetD acc c []
        aset acc c (if fieldName ∈ cur then cur else cur ++ [fieldName])
    | _, _ => acc
  match f with
  | none => idx
  | some (JVal.arr items) => items.foldl step idx
  | some (JVal.obj fields) => (fields.map (·.2)).foldl step idx
  | some _ => idx

/-- One `_schemas` frame during recovery (db.cpp lines 146-153): a
parsed frame with a string `collection` member replaces the schema of
that collection (the stored schema is the whole frame). -/
def schemaFrameStep (schemas : List (String × JVal)) (f : Frame) :
    List (String × JVal) :=
  match f with
  | none => schemas
  | some item =>
      match asString (lookupField item "collection") with
      | some cname => aset schemas cname item
      | none => schemas

/-- Role strings `"admin"`/`"read_write"` parse to their roles, anything else to
READ_ONLY (db.cpp lines 198-204). -/
def roleOfString (s : String) : UserRole :=
  if s == "admin" then UserRole.ADMIN
  else if s == "read_write" then UserRole.READ_WRITE
  else UserRole.READ_ONLY

/-- One `_auth` document populating the auth cache (db.cpp lines
191-207).  The source checks presence of `key_hash` and `role` and then
reads their `valuestring`s; non-string members are undefined behaviour
there and excluded here. -/
def authStep (cache : List (String × UserRole)) (doc : JVal) :
    List (String × UserRole) :=
  match lookupField doc "key_hash", lookupField doc "role" with
  | some (JVal.str kh), some (JVal.str rs) => aset cache kh (roleOfString rs)
  | _, _ => cache

/-- The auto-compaction heuristic test exactly as written at db.cpp
line 212: `logs.size() > temp_map.size() * 2 && temp_map.size() > 100`. -/
def autoCompactTriggered (frameCount liveCount : Nat) : Bool :=
  decide (frameCount > liveCount * 2) && decide (liveCount > 100)

/-- One iteration of the recovery loop over a listed collection
(db.cpp lines 110-217).  The accumulator carries the state and the list
of collections for which the auto-compaction heuristic fired (the
call to `compact_collection` from the heuristic rewrites the log file and leaves
every in-memory structure unchanged, so the trigger list is its full
in-memory effect). -/
def processEntry (acc : DbState × List String) (e : RecEntry) :
    DbState × List String :=
  let st := acc.1
  if e.name == "_indexes" then
    ({ st with indexed_fields := e.frames.foldl indexFrameStep st.indexed_fields },
      acc.2)
  else if e.name == "_schemas" then
    ({ st with schemas := e.frames.foldl schemaFrameStep st.schemas }, acc.2)
  else
    let m := replayFrames e.frames
    let docs := m.map (·.2)
    let st1 := { st with memory_store := aset st.memory_store e.name docs }
    let st2 := rebuild_index st1 e.name docs
    let st3 :=
      if e.name == "_auth" then
        { st2 with auth_cache := docs.foldl authStep st2.auth_cache }
      else st2
    if autoCompactTriggered e.frames.length m.length then
      (st3, acc.2 ++ [e.name])
    else (st3, acc.2)

/-- Method `Db::load_all` over a directory listing, in listing order.  Returns
the recovered state and the collections whose logs were auto-compacted. -/
def load_all (dir : List RecEntry) : DbState × List String :=
  dir.foldl processEntry (initState, [])

/-- The number of frames in the log of a collection after recovery, assuming
a triggered compaction succeeds: `Db::compact_collection` passes one
payload per live in-memory document and `Engine::compact` writes one
frame per payload (db.cpp lines 302-323, engine.cpp lines 190-225);
without a trigger the log is untouched. -/
def framesAfterRecovery (e : RecEntry) : Nat :=
  let live := (replayFrames e.frames).length
  if autoCompactTriggered e.frames.length live then live
  else e.frames.length

/-! ## Serialisation (`cJSON_PrintUnformatted` model)

The exact rendering the cJSON library produces is a library boundary;
the model supplies a concrete executable renderer with the same shape
(unformatted JSON).  String escaping is omitted and numbers are printed
as integers — no claim in scope depends on either.  Payload bytes are
taken at code-point granularity. -/

mutual

/-- Unformatted JSON rendering of a value. -/
def printJVal : JVal → String
  | JVal.null => "null"
  | JVal.bool true => "true"
  | JVal.bool false => "false"
  | JVal.num n => toString n
  | JVal.str s => "\"" ++ s ++ "\""
  | JVal.arr items => "[" ++ printJList items ++ "]"
  | JVal.obj fields => "\x7b" ++ printJFields fields ++ "\x7d"

/-- Comma-separated rendering of array items. -/
def printJList : List JVal → String
  | [] => ""
  | [v] => printJVal v
  | v :: rest => printJVal v ++ "," ++ printJList rest

/-- Comma-separated rendering of object fields. -/
def printJFields : List (String × JVal) → String
  | [] => ""
  | [(k, v)] => "\"" ++ k ++ "\":" ++ printJVal v
  | (k, v) :: rest => "\"" ++ k ++ "\":" ++ printJVal v ++ "," ++ printJFields rest

end

/-- The payload bytes of a document frame. -/
def printBytes (v : JVal) : List Nat :=
  (printJVal v).data.map Char.toNat

/-! ## CRUD operations (`Db`, db.cpp lines 436-657)

External outcomes enter as parameters: `validateOracle` is the verdict
of the `validate` call of the predicate engine when a schema is registered,
`appendOk`/`compactOk` are the stream-health results of the
disk writes, `freshId` is the generated UUID, and `ffiResult` is the
parsed array returned by the `update` call of the predicate engine. -/

/-- Method `Db::validate` (db.cpp lines 448-465): documents of collections
without a registered schema pass; otherwise the predicate engine
decides. -/
def validateDb (st : DbState) (coll : String) (validateOracle : Bool) : Bool :=
  match alookup st.schemas coll with
  | none => true
  | some _ => validateOracle

/-- The `_id` under which `Db::insert` files the document: the existing
string payload of that `_id` when the document has an `_id` member (reading
the `valuestring` of a non-string `_id` is undefined behaviour in the
source, modelled as `""`), the fresh UUID otherwise. -/
def assignedId (data : JVal) (freshId : String) : String :=
  match data with
  | JVal.obj fields =>
      if (fields.find? (fun p => p.1 == "_id")).isSome then
        (asString (lookupField data "_id")).getD ""
      else freshId
  | _ => freshId

/-- The document as committed to memory: unchanged when it already has
an `_id` member, otherwise with `("_id", freshId)` appended
(`cJSON_AddStringToObject`; a no-op on non-objects, as in cJSON). -/
def withId (data : JVal) (freshId : String) : JVal :=
  match data with
  | JVal.obj fields =>
      if (fields.find? (fun p => p.1 == "_id")).isSome then data
      else JVal.obj (fields ++ [("_id", JVal.str freshId)])
  | other => other

/-- Method `Db::insert` (db.cpp lines 490-517): validate, assign `_id`, append
the deep copy to the in-memory array (`get_collection` creates a missing
collection), index it, then append the frame to the log and return the
success flag of the append.  A failed append leaves the file unmodelled-partial in
the source; the model leaves it unchanged, which no claim observes. -/
def insert (st : DbState) (coll : String) (data : JVal) (freshId : String)
    (validateOracle appendOk : Bool) : Bool × DbState :=
  if validateDb st coll validateOracle = false then (false, st)
  else
    let newItem := withId data freshId
    let uuid := assignedId data freshId
    let stG :=
      if (alookup st.memory_store coll).isNone then
        { st with
            memory_store := aset st.memory_store coll [],
            id_indexes := aset st.id_indexes coll [] }
      else st
    let arr := agetD stG.memory_store coll []
    let st1 := { stG with memory_store := aset stG.memory_store coll (arr ++ [newItem]) }
    let st2 := { st1 with id_indexes :=
      (aset stG.id_indexes coll
        (aset (agetD stG.id_indexes coll []) uuid newItem)) }
    let st3 := update_custom_index st2 coll newItem true
    let st4 :=
      if appendOk then
        { st3 with files :=
            (aset st3.files coll
              (agetD st3.files coll [] ++ encodeFrame (printBytes newItem))) }
      else st3
    (appendOk, st4)

/-- Method `Db::compact_collection` (db.cpp lines 302-323) over
`Engine::compact` (engine.cpp lines 190-225): a missing collection
returns false untouched; otherwise the live documents are serialised and
written as the new log.  On an engine failure the `.tmp` file is removed
and the live `.aev` is left intact. -/
def compact_collection (st : DbState) (coll : String) (compactOk : Bool) :
    Bool × DbState :=
  match alookup st.memory_store coll with
  | none => (false, st)
  | some docs =>
      if compactOk then
        (true, { st with files :=
            (aset st.files coll (appendAll (docs.map printBytes))) })
      else (false, st)

/-- Method `Db::update` (db.cpp lines 630-657): a collection missing from
memory returns false untouched; otherwise the collection
returned by the predicate engine replaces the in-memory array (a parse failure stores
a null collection, which every later iteration treats as empty), both
indexes are rebuilt, the log is compacted, and the call returns true
regardless of the parse or compaction outcome. -/
def update (st : DbState) (coll : String) (ffiResult : Option (List JVal))
    (compactOk : Bool) : Bool × DbState :=
  if (alookup st.memory_store coll).isNone then (false, st)
  else
    let newDocs := ffiResult.getD []
    let st1 := { st with memory_store := aset st.memory_store coll newDocs }
    let st2 := rebuild_index st1 coll newDocs
    (true, (compact_collection st2 coll compactOk).2)

/-! ## The find planner (`Db::find`, db.cpp lines 559-625)

The outcome records which tier answered; tier 3 is the serialised
dispatch to the external predicate engine. -/

/-- Which tier of `Db::find` produced the answer. -/
inductive FindOutcome where
  | missingColl
  | tier1 (docs : List JVal)
  | tier2 (docs : List JVal)
  | tier3FullScan

/-- Flag `simple_req` (db.cpp lines 568-569): no sort and no projection,
where an absent or childless object counts as none. -/
def simpleReq (sort projection : Option JVal) : Bool :=
  (match sort with
   | none => true
   | some s => childCount s == 0) &&
  (match projection with
   | none => true
   | some p => childCount p == 0)

/-- The tier-2 slice (db.cpp lines 598-603): `start = skip`,
`end = limit > 0 ? min(start + limit, size) : size`, emitting indices
`[start, end)` when `start < size`. -/
def tier2Slice (docs : List JVal) (limit skip : Nat) : List JVal :=
  let start := skip
  let stop := if limit > 0 then min (start + limit) docs.length else docs.length
  if start < docs.length then (docs.drop start).take (stop - start) else []

/-- Method `Db::find` (db.cpp lines 559-625), transcribed branch for branch.
Tier 1 fires whenever the request is simple and the `_id`
member of the query is a string — the source never checks that `_id` is the only
key.  Tier 2 fires for simple single-key queries on a registered field
with a non-empty stringified value; a registered value absent from the
index answers empty without falling through.  Everything else goes to
the full scan. -/
def find (st : DbState) (coll : String) (query : JVal)
    (sort projection : Option JVal) (limit skip : Nat) : FindOutcome :=
  if (alookup st.memory_store coll).isNone then FindOutcome.missingColl
  else
    let simple := simpleReq sort projection
    match simple, asString (lookupField query "_id") with
    | true, some target =>
        match alookup (agetD st.id_indexes coll []) target with
        | some doc => FindOutcome.tier1 [doc]
        | none => FindOutcome.tier1 []
    | _, _ =>
        let tier2Applicable :=
          simple && childCount query == 1 &&
            (alookup st.indexed_fields coll).isSome
        match tier2Applicable, query with
        | true, JVal.obj ((field, value) :: _) =>
            if field ∈ agetD st.indexed_fields coll [] then
              let valStr := (stringifyVal (some value)).getD ""
              if valStr != "" then
                match alookup (agetD (agetD st.custom_indexes coll []) field []) valStr with
                | some docs => FindOutcome.tier2 (tier2Slice docs limit skip)
                | none => FindOutcome.tier2 []
              else FindOutcome.tier3FullScan
            else FindOutcome.tier3FullScan
        | _, _ => FindOutcome.tier3FullScan

/-! ## Lock discipline (db.cpp, one trace per public operation)

The sequence of reader-writer lock events of each public method, read off
its `std::unique_lock` / `std::shared_lock` declarations (the lock is
released when the guard leaves scope at return). -/

/-- Reader-writer lock events on `Db::rw_lock_`. -/
inductive LockEvent where
  | acquireShared
  | releaseShared
  | acquireExclusive
  | releaseExclusive
deriving DecidableEq

/-- Method `Db::count` holds a shared lock for its whole body (db.cpp line 536). -/
def countLockTrace : List LockEvent :=
  [LockEvent.acquireShared, LockEvent.releaseShared]

/-- Method `Db::insert` holds a unique lock for its whole body (db.cpp line 492). -/
def insertLockTrace : List LockEvent :=
  [LockEvent.acquireExclusive, LockEvent.releaseExclusive]

/-- Method `Db::update` holds a unique lock for its whole body (db.cpp line 632). -/
def updateLockTrace : List LockEvent :=
  [LockEvent.acquireExclusive, LockEvent.releaseExclusive]

/-- Method `Db::upsert` (db.cpp lines 522-529) takes no lock of its own: it
calls the public `count`, then the public `update` or `insert` according
to the count. -/
def upsertLockTrace (existing : Bool) : List LockEvent :=
  countLockTrace ++ (if existing then updateLockTrace else insertLockTrace)

/-- An event that acquires the lock (in either mode). -/
def isAcquireEvent : LockEvent → Bool
  | LockEvent.acquireShared => true
  | LockEvent.acquireExclusive => true
  | _ => false

/-- The property claim C7 asserts of a trace: exactly one lock acquisition, it is
the writer (exclusive) lock, it is taken first and released last — i.e.
the whole operation sits inside one writer critical section. -/
def singleWriterCriticalSection (t : List LockEvent) : Prop :=
  t.countP isAcquireEvent = 1 ∧
    t.head? = some LockEvent.acquireExclusive ∧
    t.getLast? = some LockEvent.releaseExclusive

/-! ## Concrete inputs used by counterexamples and witnesses -/

/-- A live document `{"_id": "a", "kind": "A"}`. -/
def c3Doc : JVal := JVal.obj [("_id", JVal.str "a"), ("kind", JVal.str "A")]

/-- A directory listing in which the data collection `items` is
enumerated *before* `_indexes` — one of the orders directory iteration
may produce.  `_indexes` registers the field `kind` on `items`. -/
def c3Dir : List RecEntry :=
  [⟨"items", [some c3Doc]⟩,
   ⟨"_indexes",
     [some (JVal.arr
       [JVal.obj [("collection", JVal.str "items"), ("field", JVal.str "kind")]])]⟩]

/-- The stored document `{"_id": "abc", "v": 1}`. -/
def c4Doc : JVal := JVal.obj [("_id", JVal.str "abc"), ("v", JVal.num 1)]

/-- A state holding exactly `c4Doc` in collection `items`, with its
primary-index entry and no registered secondary fields. -/
def c4State : DbState :=
  { initState with
      memory_store := [("items", [c4Doc])],
      id_indexes := [("items", [("abc", c4Doc)])] }

/-- The query `{"_id": "abc", "v": 2}` — it carries `_id` together with
another key, and `c4Doc` does not satisfy its `v` constraint. -/
def c4Query : JVal := JVal.obj [("_id", JVal.str "abc"), ("v", JVal.num 2)]

/-- The i-th scenario document `{"_id": "<i>", "v": v}`. -/
def c8Doc (i v : Nat) : JVal :=
  JVal.obj [("_id", JVal.str (toString i)), ("v", JVal.num v)]

/-- The auto-compaction scenario log of the spec: 101 insert frames followed
by 101 full-replacement frames for the same `_id`s — 202 frames, 101
live documents. -/
def c8Frames : List Frame :=
  ((List.range 101).map fun i => some (c8Doc i 0)) ++
    ((List.range 101).map fun i => some (c8Doc i 1))

/-- The scenario collection as recovery sees it. -/
def c8Entry : RecEntry := ⟨"items", c8Frames⟩

/-- A state holding one document in collection `c` (used as a concrete
instantiation by several witnesses). -/
def oneDocState : DbState :=
  { initState with memory_store := [("c", [JVal.null])] }

/-! ## Codec lemmas -/

theorem readLE32_le32 (n : Nat) :
    readLE32 (n % 256) (n / 256 % 256) (n / 65536 % 256)
      (n / 16777216 % 256) = n % 2 ^ 32 := by
  unfold readLE32
  omega

/-- An incomplete tail on its own yields no frames. -/
theorem load_log_incompleteTail (tail : List Nat)
    (htail : incompleteTail tail) : load_log tail = [] := by
  rcases htail with h | ⟨b0, b1, b2, b3, r, rfl, hr⟩
  · rcases tail with _ | ⟨a, _ | ⟨b, _ | ⟨c, _ | ⟨d, r⟩⟩⟩⟩
    · simp [load_log]
    · simp [load_log]
    · simp [load_log]
    · simp [load_log]
    · simp at h
      omega
  · simp [load_log, hr]

/-- Round trip with an incomplete tail: the reader recovers exactly the
appended payloads and silently drops the tail.  (Shared helper; the C2
claim theorem and the C6 compaction theorem both instantiate it.) -/
theorem load_log_appendAll_tail (payloads : List (List Nat))
    (tail : List Nat) (hlen : ∀ p ∈ payloads, p.length < 2 ^ 32)
    (htail : incompleteTail tail) :
    load_log (appendAll payloads ++ tail) = payloads := by
  induction payloads with
  | nil =>
      simpa [appendAll] using load_log_incompleteTail tail htail
  | cons p ps ih =>
      have hp : p.length < 2 ^ 32 := hlen p (by simp)
      have hmod : p.length % 2 ^ 32 = p.length := Nat.mod_eq_of_lt hp
      have htake : p.take (p.length % 2 ^ 32) = p := by
        rw [hmod]
        simp
      have hframe : encodeFrame p = le32 p.length ++ p := by
        rw [encodeFrame, htake]
      have hbytes :
          appendAll (p :: ps) ++ tail =
            p.length % 256 :: p.length / 256 % 256 ::
              p.length / 65536 % 256 :: p.length / 16777216 % 256 ::
              (p ++ (appendAll ps ++ tail)) := by
        rw [appendAll, List.map_cons, List.flatten_cons, ← appendAll, hframe,
          le32]
        simp only [List.cons_append, List.append_assoc, List.nil_append]
      rw [hbytes, load_log, readLE32_le32, hmod]
      have hge : ¬ (p ++ (appendAll ps ++ tail)).length < p.length := by
        simp
      rw [if_neg hge, List.take_left, List.drop_left]
      exact congrArg (p :: ·) (ih (fun q hq => hlen q (by simp [hq])))

/-! ## Association-list lemmas -/

theorem alookup_aset_self {α : Type} (m : List (String × α)) (k : String)
    (v : α) : alookup (aset m k v) k = some v := by
  induction m with
  | nil => simp [aset, alookup]
  | cons p rest ih =>
      by_cases hk : p.1 == k
      · simp [aset, hk, alookup]
      · simp only [aset, hk, Bool.false_eq_true, if_false]
        simpa [alookup, hk] using ih

theorem agetD_aset_self {α : Type} (m : List (String × α)) (k : String)
    (v d : α) : agetD (aset m k v) k d = v := by
  simp [agetD, alookup_aset_self]

theorem aset_aset {α : Type} (m : List (String × α)) (k : String)
    (v w : α) : aset (aset m k v) k w = aset m k w := by
  induction m with
  | nil => simp [aset]
  | cons p rest ih =>
      by_cases hk : p.1 == k
      · simp [aset, hk]
      · simp [aset, hk, ih]

theorem aerase_of_alookup_none {α : Type} (m : List (String × α))
    (k : String) (h : alookup m k = none) : aerase m k = m := by
  induction m with
  | nil => rfl
  | cons p rest ih =>
      by_cases hk : p.1 == k
      · simp [alookup, hk] at h
      · simp only [aerase, hk, Bool.false_eq_true, if_false]
        have hrest : alookup rest k = none := by
          simpa [alookup, hk] using h
        rw [ih hrest]

/-! ## Replay lemmas -/

theorem applyFrame_eq_specApplyFrame (m : List (String × JVal)) (f : Frame) :
    applyFrame m f = specApplyFrame m f := by
  cases f with
  | none => rfl
  | some item =>
      cases h : asString (lookupField item "_id") with
      | none => simp [applyFrame, specApplyFrame, h]
      | some uuid =>
          cases h2 : isTrueVal (lookupField item "_deleted") <;>
            simp [applyFrame, specApplyFrame, h, h2]

theorem replayFrames_eq_specReplayFrames (frames : List Frame) :
    replayFrames frames = specReplayFrames frames := by
  have hfun : applyFrame = specApplyFrame :=
    funext fun m => funext fun f => applyFrame_eq_specApplyFrame m f
  rw [replayFrames, specReplayFrames, hfun]

/-! ## Recovery lemmas -/

theorem rebuildStep_memory (coll : String) (s : DbState) (doc : JVal) :
    (rebuildStep coll s doc).memory_store = s.memory_store := by
  cases h : asString (lookupField doc "_id") <;>
    simp [rebuildStep, update_custom_index, h]

theorem foldl_rebuildStep_memory (coll : String) (docs : List JVal) :
    ∀ s : DbState,
      (docs.foldl (rebuildStep coll) s).memory_store = s.memory_store := by
  induction docs with
  | nil => intro s; rfl
  | cons d ds ih =>
      intro s
      rw [List.foldl_cons, ih, rebuildStep_memory]

theorem rebuild_index_memory (st : DbState) (coll : String)
    (docs : List JVal) :
    (rebuild_index st coll docs).memory_store = st.memory_store := by
  rw [rebuild_index, foldl_rebuildStep_memory]

/-- Recovery of one non-reserved collection stores exactly the replayed
document map, materialised as an array. -/
theorem processEntry_memory (st : DbState) (names : List String)
    (e : RecEntry) (h1 : e.name ≠ "_indexes") (h2 : e.name ≠ "_schemas") :
    alookup (processEntry (st, names) e).1.memory_store e.name =
      some ((replayFrames e.frames).map (·.2)) := by
  have hb1 : (e.name == "_indexes") = false := by simpa using h1
  have hb2 : (e.name == "_schemas") = false := by simpa using h2
  cases htrig : autoCompactTriggered e.frames.length (replayFrames e.frames).length <;>
    cases hauth : e.name == "_auth" <;>
      simp [processEntry, hb1, hb2, htrig, hauth, rebuild_index_memory,
        alookup_aset_self]

/-! ## Heuristic lemmas -/

theorem autoCompactTriggered_iff (f l : Nat) :
    autoCompactTriggered f l = true ↔ 2 * l < f ∧ 100 < l := by
  simp [autoCompactTriggered]
  omega

theorem processEntry_snd (st : DbState) (names : List String) (e : RecEntry)
    (h1 : e.name ≠ "_indexes") (h2 : e.name ≠ "_schemas") :
    (processEntry (st, names) e).2 =
      (if autoCompactTriggered e.frames.length (replayFrames e.frames).length
        then names ++ [e.name] else names) := by
  have hb1 : (e.name == "_indexes") = false := by
    simpa using h1
  have hb2 : (e.name == "_schemas") = false := by
    simpa using h2
  cases htrig : autoCompactTriggered e.frames.length (replayFrames e.frames).length <;>
    simp [processEntry, hb1, hb2, htrig]

/-! ## Hash lemmas -/

theorem hashStep_eq (h b : Nat) (_hb : b < 256) :
    codeHashStep h b = (signedHashStep (h : Int) b).toNat := by
  rw [codeHashStep, signedHashStep, Nat.shiftLeft_eq]
  unfold charToU64
  by_cases h128 : b < 128 <;> simp only [h128, if_true, if_false] <;> omega

theorem signedHashStep_nonneg (h : Int) (b : Nat) :
    0 ≤ signedHashStep h b := by
  rw [signedHashStep]
  by_cases h128 : b < 128 <;> simp only [h128, if_true, if_false] <;> omega

theorem hashAcc_eq (bytes : List Nat) (hbytes : ∀ b ∈ bytes, b < 256) :
    ∀ h : Nat, h < 2 ^ 64 →
      bytes.foldl codeHashStep h =
        (bytes.foldl signedHashStep (h : Int)).toNat := by
  induction bytes with
  | nil =>
      intro h hh
      simp
  | cons b bs ih =>
      intro h hh
      have hb : b < 256 := hbytes b (by simp)
      simp only [List.foldl_cons]
      have hcast : (((signedHashStep (h : Int) b).toNat : Nat) : Int) =
          signedHashStep (h : Int) b :=
        Int.toNat_of_nonneg (signedHashStep_nonneg (h : Int) b)
      have hlt : codeHashStep h b < 2 ^ 64 := by
        rw [codeHashStep]
        omega
      rw [hashStep_eq h b hb] at hlt ⊢
      rw [ih (fun x hx => hbytes x (by simp [hx])) _ hlt, hcast]

theorem hashAcc_ascii_aux (bytes : List Nat) (hascii : ∀ b ∈ bytes, b < 128) :
    ∀ h : Nat, bytes.foldl codeHashStep h = bytes.foldl claimHashStep h := by
  induction bytes with
  | nil => intro h; rfl
  | cons b bs ih =>
      intro h
      have hb : b < 128 := hascii b (by simp)
      have hstep : codeHashStep h b = claimHashStep h b := by
        rw [codeHashStep, claimHashStep, charToU64]
        simp [hb]
      simp only [List.foldl_cons, hstep]
      exact ih (fun x hx => hascii x (by simp [hx])) _

theorem hashAcc_ascii (bytes : List Nat) (hascii : ∀ b ∈ bytes, b < 128) :
    hashKeyAcc bytes = hashKeyClaimAcc bytes :=
  hashAcc_ascii_aux bytes hascii 5381

/-! ## Claim theorems -/

/-- Claim C1: for any non-reserved collection, the in-memory document
set recovery produces is exactly the left fold described by the claim —
a parseable frame with a string `_id` and no `_deleted: true` marker
inserts or replaces, a `_deleted: true` frame with a string `_id`
removes (removing an absent `_id` is a no-op), and a frame lacking
`_id` or failing to parse is skipped; in particular an extra tombstone
for an already-deleted `_id` leaves the recovered state unchanged. -/
theorem c1_replay_correctness (st : DbState) (names : List String)
    (e : RecEntry) (uuid : String)
    (h1 : e.name ≠ "_indexes") (h2 : e.name ≠ "_schemas")
    (hdead : alookup (replayFrames e.frames) uuid = none) :
    alookup (processEntry (st, names) e).1.memory_store e.name =
      some ((specReplayFrames e.frames).map (·.2)) ∧
    replayFrames e.frames = specReplayFrames e.frames ∧
    replayFrames (e.frames ++ [some (tombstone uuid)]) =
      replayFrames e.frames := by
  refine ⟨?_, replayFrames_eq_specReplayFrames e.frames, ?_⟩
  · rw [← replayFrames_eq_specReplayFrames]
    exact processEntry_memory st names e h1 h2
  · rw [replayFrames, List.foldl_append]
    exact aerase_of_alookup_none _ uuid hdead

/-- Witness for C1 at a concrete log: insert `{"_id": "x"}`, delete it,
then append a second tombstone for the already-deleted `"x"`. -/
theorem c1_replay_correctness_witness :
    alookup (replayFrames [some (JVal.obj [("_id", JVal.str "x")]),
      some (tombstone "x")]) "x" = none ∧
    replayFrames ([some (JVal.obj [("_id", JVal.str "x")]), some (tombstone "x")] ++
        [some (tombstone "x")]) =
      replayFrames [some (JVal.obj [("_id", JVal.str "x")]), some (tombstone "x")] :=
  ⟨rfl,
    (c1_replay_correctness initState []
      ⟨"items", [some (JVal.obj [("_id", JVal.str "x")]), some (tombstone "x")]⟩
      "x" (by decide) (by decide) rfl).2.2⟩

/-- Claim C2: appending payloads to a fresh log and then any incomplete
trailing frame (short header, or full header announcing more payload
bytes than follow), `Engine::load_log` returns exactly the appended
payloads in order, silently dropping the tail. -/
theorem c2_log_codec_round_trip (payloads : List (List Nat))
    (tail : List Nat) (hlen : ∀ p ∈ payloads, p.length < 2 ^ 32)
    (htail : incompleteTail tail) :
    load_log (appendAll payloads ++ tail) = payloads :=
  load_log_appendAll_tail payloads tail hlen htail

/-- Witness for C2: one two-byte payload followed by the corrupt
tail of spec scenario 7, namely `01 00 00 00` (a header claiming one byte, with no byte after). -/
theorem c2_log_codec_round_trip_witness :
    load_log (appendAll [[65, 66]] ++ [1, 0, 0, 0]) = [[65, 66]] :=
  c2_log_codec_round_trip [[65, 66]] [1, 0, 0, 0]
    (by decide)
    (Or.inr ⟨1, 0, 0, 0, [], rfl, by decide⟩)

/-- Claim C3 (refuted: the code violates it): when directory iteration
enumerates `items` before `_indexes`, recovery registers the field
`kind` on `items` and leaves `{"_id": "a", "kind": "A"}` live, yet the
document appears zero times — not exactly once — in the secondary index
bucket for `kind`/`"A"`, because `Db::load_all` rebuilt the index before
the `_indexes` metadata was loaded. -/
theorem c3_secondary_index_recovery_gap :
    agetD (load_all c3Dir).1.indexed_fields "items" [] = ["kind"] ∧
    agetD (load_all c3Dir).1.memory_store "items" [] = [c3Doc] ∧
    stringifyVal (lookupField c3Doc "kind") = some "A" ∧
    secondaryBucket (load_all c3Dir).1 "items" "kind" "A" = [] :=
  ⟨rfl, rfl, rfl, rfl⟩

/-- Claim C4 (refuted: the code violates it): with no sort and no
projection, a query that carries `_id` together with another key —
`{"_id": "abc", "v": 2}` against the stored `{"_id": "abc", "v": 1}` —
is answered by the tier-1 primary-key fast path, which returns the
indexed document while ignoring the extra constraint, instead of being
dispatched to the tier-3 full scan as the claim states. -/
theorem c4_find_tier1_multikey_bug :
    childCount c4Query = 2 ∧
    find c4State "items" c4Query none none 0 0 = FindOutcome.tier1 [c4Doc] ∧
    find c4State "items" c4Query none none 0 0 ≠ FindOutcome.tier3FullScan :=
  ⟨rfl, rfl, fun h => nomatch h⟩

/-- Claim C5: `Db::insert` returns false exactly when validation
rejects or the log append fails; a validation reject leaves the entire
state unchanged, while a passed validation always commits the document
(with its assigned `_id`) to the in-memory array, the primary index and
the secondary indexes — even when the append then fails. -/
theorem c5_insert_failure_semantics (st : DbState) (coll : String)
    (data : JVal) (freshId : String) (vOk aOk : Bool) :
    ((insert st coll data freshId vOk aOk).1 = false ↔
      validateDb st coll vOk = false ∨ aOk = false) ∧
    (validateDb st coll vOk = false →
      (insert st coll data freshId vOk aOk).2 = st) ∧
    (validateDb st coll vOk = true →
      ((insert st coll data freshId vOk aOk).2.memory_store =
        aset st.memory_store coll
          (agetD st.memory_store coll [] ++ [withId data freshId]) ∧
      alookup (agetD (insert st coll data freshId vOk aOk).2.id_indexes coll [])
          (assignedId data freshId) = some (withId data freshId) ∧
      (insert st coll data freshId vOk aOk).2.custom_indexes =
        customIndexUpdate st.indexed_fields st.custom_indexes coll
          (withId data freshId) true ∧
      (aOk = false → (insert st coll data freshId vOk aOk).2.files = st.files))) := by
  cases hv : validateDb st coll vOk with
  | false =>
      refine ⟨?_, fun _ => ?_, fun hcontr => absurd hcontr (by simp)⟩
      · simp [insert, hv]
      · simp [insert, hv]
  | true =>
      refine ⟨?_, fun hcontr => absurd hcontr (by simp), fun _ => ?_⟩
      · cases aOk <;> simp [insert, hv]
      · refine ⟨?_, ?_, ?_, ?_⟩ <;>
          cases hm : alookup st.memory_store coll <;> cases aOk <;>
            simp [insert, hv, hm, update_custom_index, agetD,
              alookup_aset_self, aset_aset]

/-- Witness for C5: inserting `{"a": 1}` into an empty database with a
passing validation and a failing append still commits the document to
the in-memory array. -/
theorem c5_insert_failure_semantics_witness :
    validateDb initState "c" true = true ∧
    (insert initState "c" (JVal.obj [("a", JVal.num 1)]) "u1" true false).2.memory_store =
      aset initState.memory_store "c"
        (agetD initState.memory_store "c" [] ++
          [withId (JVal.obj [("a", JVal.num 1)]) "u1"]) :=
  ⟨rfl,
    ((c5_insert_failure_semantics initState "c" (JVal.obj [("a", JVal.num 1)])
      "u1" true false).2.2 rfl).1⟩

/-- Claim C6: compacting a collection that is present in memory leaves
every in-memory component and the auth cache unchanged, and after a
successful compaction the log holds exactly one frame per live
document, each frame the serialisation of that document, in array
order. -/
theorem c6_compaction_preserves_state (st : DbState) (coll : String)
    (docs : List JVal) (ok : Bool)
    (hmem : alookup st.memory_store coll = some docs)
    (hlen : ∀ d ∈ docs, (printBytes d).length < 2 ^ 32) :
    ((compact_collection st coll ok).2.memory_store = st.memory_store ∧
     (compact_collection st coll ok).2.id_indexes = st.id_indexes ∧
     (compact_collection st coll ok).2.custom_indexes = st.custom_indexes ∧
     (compact_collection st coll ok).2.indexed_fields = st.indexed_fields ∧
     (compact_collection st coll ok).2.schemas = st.schemas ∧
     (compact_collection st coll ok).2.auth_cache = st.auth_cache) ∧
    (load_log (agetD (compact_collection st coll true).2.files coll []) =
        docs.map printBytes ∧
     (load_log (agetD (compact_collection st coll true).2.files coll [])).length =
        docs.length) := by
  have hload :
      load_log (agetD (compact_collection st coll true).2.files coll []) =
        docs.map printBytes := by
    simp only [compact_collection, hmem, if_true]
    rw [agetD_aset_self]
    have := load_log_appendAll_tail (docs.map printBytes) []
      (by
        intro p hp
        rcases List.mem_map.mp hp with ⟨d, hd, rfl⟩
        exact hlen d hd)
      (Or.inl (by simp))
    simpa using this
  refine ⟨?_, hload, by rw [hload]; simp⟩
  cases ok <;> simp [compact_collection, hmem]

/-- Witness for C6: compacting the one-document collection `c` leaves
the memory store unchanged and the new log replays to exactly the
serialisation of that document. -/
theorem c6_compaction_preserves_state_witness :
    (compact_collection oneDocState "c" true).2.memory_store =
        oneDocState.memory_store ∧
    load_log (agetD (compact_collection oneDocState "c" true).2.files "c" []) =
      [JVal.null].map printBytes :=
  ⟨(c6_compaction_preserves_state oneDocState "c" [JVal.null] true rfl
      (by intro d hd; rw [List.mem_singleton] at hd; subst hd; decide)).1.1,
    (c6_compaction_preserves_state oneDocState "c" [JVal.null] true rfl
      (by intro d hd; rw [List.mem_singleton] at hd; subst hd; decide)).2.1⟩

/-- Claim C7 (refuted: the code violates it): `Db::upsert` does not
hold the writer lock across its two phases — its lock trace runs the
count under a shared lock, releases it, and only then acquires the
exclusive lock inside the called `update` or `insert`, so it is never a
single writer critical section. -/
theorem c7_upsert_not_single_critical_section :
    (upsertLockTrace true =
        [LockEvent.acquireShared, LockEvent.releaseShared,
          LockEvent.acquireExclusive, LockEvent.releaseExclusive] ∧
      upsertLockTrace false =
        [LockEvent.acquireShared, LockEvent.releaseShared,
          LockEvent.acquireExclusive, LockEvent.releaseExclusive]) ∧
    ¬ singleWriterCriticalSection (upsertLockTrace true) ∧
    ¬ singleWriterCriticalSection (upsertLockTrace false) := by
  refine ⟨⟨rfl, rfl⟩, ?_, ?_⟩ <;>
    · rw [singleWriterCriticalSection]
      decide

set_option maxRecDepth 100000 in
/-- Claim C8 (counterexample): on the own scenario of the spec — a log of
202 frames replaying to 101 live documents — the heuristic
`frames > 2 × live ∧ live > 100` is false (202 is not strictly greater
than 202), so recovery does not compact and the log keeps 202 frames,
not the 101 the claim asserts. -/
theorem c8_auto_compaction_counterexample :
    c8Entry.frames.length = 202 ∧
    (replayFrames c8Entry.frames).length = 101 ∧
    framesAfterRecovery c8Entry = 202 ∧ (202 : Nat) ≠ 101 := by
  refine ⟨rfl, ?_, ?_, by decide⟩ <;> rfl

/-- Claim C8 as amended: at the end of recovery the log of a collection is
compacted exactly when its frame count is strictly greater than twice
its live count and the live count is strictly greater than 100; when
the heuristic does not fire — as in the 202-frame/101-live scenario —
the log retains its original frame count, and when it fires the log is
rewritten to one frame per live document. -/
theorem c8_auto_compaction_amended (st : DbState) (names : List String)
    (e : RecEntry) (h1 : e.name ≠ "_indexes") (h2 : e.name ≠ "_schemas") :
    ((processEntry (st, names) e).2 = names ++ [e.name] ↔
      (2 * (replayFrames e.frames).length < e.frames.length ∧
        100 < (replayFrames e.frames).length)) ∧
    ((2 * (replayFrames e.frames).length < e.frames.length ∧
        100 < (replayFrames e.frames).length) →
      framesAfterRecovery e = (replayFrames e.frames).length) ∧
    (¬ (2 * (replayFrames e.frames).length < e.frames.length ∧
        100 < (replayFrames e.frames).length) →
      framesAfterRecovery e = e.frames.length) := by
  rw [processEntry_snd st names e h1 h2]
  cases htrig : autoCompactTriggered e.frames.length (replayFrames e.frames).length with
  | false =>
      have hprop := autoCompactTriggered_iff e.frames.length (replayFrames e.frames).length
      rw [htrig] at hprop
      refine ⟨?_, ?_, ?_⟩
      · simp only [Bool.false_eq_true, if_false]
        constructor
        · intro hcontr
          have := congrArg List.length hcontr
          simp at this
        · intro hc
          exact absurd (hprop.mpr hc) (by simp)
      · intro hc
        exact absurd (hprop.mpr hc) (by simp)
      · intro _
        rw [framesAfterRecovery]
        simp [htrig]
  | true =>
      have hprop := autoCompactTriggered_iff e.frames.length (replayFrames e.frames).length
      rw [htrig] at hprop
      have hc := hprop.mp rfl
      refine ⟨?_, fun _ => ?_, fun hn => absurd hc hn⟩
      · simp [hc]
      · rw [framesAfterRecovery]
        simp [htrig]

/-- Witness for C8 as amended: an empty collection log (0 frames, 0
live) does not trigger the heuristic and keeps its 0 frames. -/
theorem c8_auto_compaction_amended_witness :
    (processEntry (initState, []) ⟨"items", []⟩).2 = ([] : List String) ∧
    framesAfterRecovery ⟨"items", []⟩ = 0 := by
  have h := c8_auto_compaction_amended initState [] ⟨"items", []⟩
    (by decide) (by decide)
  exact ⟨rfl, h.2.2 (by decide)⟩

/-- Claim C9 (counterexample): on the one-byte input `0xFF`, `hash_key`
renders 177572 — the accumulation with the byte sign-extended through
`char` — not the 177828 yielded by the unsigned-byte accumulation of the claim. -/
theorem c9_hash_key_counterexample :
    hash_key [255] ≠ toString (hashKeyClaimAcc [255]) := by
  decide

/-- Claim C9 as amended: `hash_key` renders in decimal the DJB2
accumulation starting at 5381 in which each input byte enters as a
signed 8-bit value (bytes ≥ 128 contribute `c - 256`), reduced modulo
2^64 — and on inputs whose bytes are all below 128 this agrees with the
unsigned accumulation of the claim. -/
theorem c9_hash_key_amended (bytes : List Nat)
    (hbytes : ∀ b ∈ bytes, b < 256) :
    hash_key bytes = toString (hashKeySignedAcc bytes).toNat ∧
    ((∀ b ∈ bytes, b < 128) →
      hash_key bytes = toString (hashKeyClaimAcc bytes)) := by
  constructor
  · rw [hash_key, hashKeyAcc, hashKeySignedAcc]
    rw [hashAcc_eq bytes hbytes 5381 (by omega)]
    rfl
  · intro hascii
    rw [hash_key, hashAcc_ascii bytes hascii]

/-- Witness for C9 as amended: the all-ASCII input `"root"` hashes
identically under the accumulation of the code, the signed rendering, and
the accumulation of the claim. -/
theorem c9_hash_key_amended_witness :
    hash_key [114, 111, 111, 116] =
        toString (hashKeySignedAcc [114, 111, 111, 116]).toNat ∧
    hash_key [114, 111, 111, 116] =
        toString (hashKeyClaimAcc [114, 111, 111, 116]) :=
  ⟨(c9_hash_key_amended [114, 111, 111, 116] (by decide)).1,
    (c9_hash_key_amended [114, 111, 111, 116] (by decide)).2 (by decide)⟩

/-- Claim C10: `Db::update` returns true exactly when the collection
exists in memory — independently of the parse result of the predicate engine
and of the compaction outcome — and returns false, changing nothing,
only when the collection is missing. -/
theorem c10_update_return_semantics (st : DbState) (coll : String)
    (ffiResult : Option (List JVal)) (compactOk : Bool) :
    ((update st coll ffiResult compactOk).1 =
        (alookup st.memory_store coll).isSome) ∧
    (alookup st.memory_store coll = none →
      (update st coll ffiResult compactOk).2 = st) := by
  cases h : alookup st.memory_store coll with
  | none => exact ⟨by simp [update, h], fun _ => by simp [update, h]⟩
  | some docs => exact ⟨by simp [update, h], fun hcontr => by simp [h] at hcontr⟩

/-- Witness for C10: on an empty database, updating the missing
collection `c` returns without touching the state. -/
theorem c10_update_return_semantics_witness :
    (update initState "c" none false).2 = initState :=
  (c10_update_return_semantics initState "c" none false).2 rfl

end AevumDb
